import Mathlib

/-!
Verification development for the relay text controller
(`relay/controller/text.go` of the one-api repository).

The file shallowly embeds the Go source:

* a JSON value model and a parser standing for `encoding/json.Unmarshal`
  into `map[string]interface{}` as the extractors use it;
* `extractContentFromResponse` and `extractContentFromStream`, translated
  statement by statement from the source, with `strings.Split` and
  `strings.TrimSpace` modelled on character lists;
* the duplicating response writer `responseBodyLogWriter`;
* `getRequestBody` and the model-name mapping step of `RelayTextHelper`;
* the control flow of `RelayTextHelper` as a function of the outcomes of
  its collaborator calls, recording the quota-ledger events it triggers.

External collaborators (the billing package, `getMappedModelName`, the
`apitype`/`channeltype` enum values, the adaptor methods) are not part of
the given source tree; where a claim depends on them they are modelled
from the specification, and each such definition says so in its
doc comment.
-/

/-- A JSON value as `encoding/json` decodes into `interface{}`: null,
booleans, numbers, strings, arrays and string-keyed objects.  Numbers keep
their raw token text: the extractors only ever assert values to be strings,
objects or arrays, so the numeric value itself is never inspected. -/
inductive Json where
  | null
  | bool (b : Bool)
  | num (raw : String)
  | str (s : String)
  | arr (items : List Json)
  | obj (fields : List (String × Json))

/-- Type assertion `.(map[string]interface{})`: succeeds only on an object. -/
def Json.asObj : Json → Option (List (String × Json))
  | .obj fields => some fields
  | _ => none

/-- Type assertion `.([]interface{})`: succeeds only on an array. -/
def Json.asArr : Json → Option (List Json)
  | .arr items => some items
  | _ => none

/-- Type assertion `.(string)`: succeeds only on a string. -/
def Json.asStr : Json → Option String
  | .str s => some s
  | _ => none

/-- Go map indexing `m[k]`: with duplicate keys `encoding/json` keeps the
last occurrence, so lookup scans the reversed field list.  A missing key
yields `none`, as indexing a Go map yields `nil` and every subsequent type
assertion on `nil` fails. -/
def jget (fields : List (String × Json)) (k : String) : Option Json :=
  (fields.reverse.find? (fun p => p.1 == k)).map (fun p => p.2)

/-- JSON insignificant whitespace, per RFC 8259 as `encoding/json` skips it. -/
def isJsonWs (c : Char) : Bool :=
  c == ' ' || c == '\t' || c == '\n' || c == '\r'

/-- Drop leading JSON whitespace. -/
def skipWs : List Char → List Char
  | c :: cs => if isJsonWs c then skipWs cs else c :: cs
  | [] => []

def isDigitCh (c : Char) : Bool := '0' ≤ c && c ≤ '9'

/-- Characters that may continue a JSON number token. -/
def isNumCont (c : Char) : Bool :=
  isDigitCh c || c == '.' || c == 'e' || c == 'E' || c == '+' || c == '-'

def takeNumCont : List Char → List Char × List Char
  | c :: cs =>
    if isNumCont c then
      let (ds, r) := takeNumCont cs
      (c :: ds, r)
    else ([], c :: cs)
  | [] => ([], [])

/-- One escape character after a backslash inside a JSON string literal. -/
def unescapeCh (e : Char) : Option Char :=
  if e == 'n' then some '\n'
  else if e == 't' then some '\t'
  else if e == 'r' then some '\r'
  else if e == '"' then some '"'
  else if e == '\\' then some '\\'
  else if e == '/' then some '/'
  else if e == 'b' then some (Char.ofNat 8)
  else if e == 'f' then some (Char.ofNat 12)
  else none

/-- Parse the body of a JSON string literal, the opening quote already
consumed; returns the decoded string and the input after the closing
quote.  (`\u` escapes are outside the fragment the controller ever sees
and make the literal unparsable here.) -/
def parseStrBody (acc : List Char) : List Char → Option (String × List Char)
  | '"' :: rest => some (String.mk acc.reverse, rest)
  | '\\' :: e :: rest =>
    match unescapeCh e with
    | some ch => parseStrBody (ch :: acc) rest
    | none => none
  | c :: rest => parseStrBody (c :: acc) rest
  | [] => none

/-- Does `pat` occur verbatim at the head of `cs`? -/
def matchesAt : List Char → List Char → Bool
  | [], _ => true
  | _ :: _, [] => false
  | p :: ps, c :: cs => p == c && matchesAt ps cs

/-- Parse a JSON number token (lexical approximation: a nonempty run of
number characters starting with a digit or minus sign). -/
def parseNumTok (cs : List Char) : Option (Json × List Char) :=
  match cs with
  | c :: _ =>
    if c == '-' || isDigitCh c then
      let (ds, r) := takeNumCont cs
      some (Json.num (String.mk ds), r)
    else none
  | [] => none

mutual

/-- Parse one JSON value.  Structural on `fuel`; callers supply fuel larger
than the recursion can consume, so running out encodes no real input. -/
def parseVal (fuel : Nat) (cs : List Char) : Option (Json × List Char) :=
  match fuel with
  | 0 => none
  | fuel + 1 =>
    match skipWs cs with
    | [] => none
    | c :: rest =>
      if c == '"' then
        match parseStrBody [] rest with
        | some (s, r) => some (Json.str s, r)
        | none => none
      else if c == '\x7b' then
        match skipWs rest with
        | '\x7d' :: r => some (Json.obj [], r)
        | cs2 =>
          match parseMember fuel cs2 with
          | some (k, v, r) => parseObjTail fuel [(k, v)] r
          | none => none
      else if c == '[' then
        match skipWs rest with
        | ']' :: r => some (Json.arr [], r)
        | cs2 =>
          match parseVal fuel cs2 with
          | some (v, r) => parseArrTail fuel [v] r
          | none => none
      else if matchesAt "null".data (c :: rest) then
        some (Json.null, (c :: rest).drop 4)
      else if matchesAt "true".data (c :: rest) then
        some (Json.bool true, (c :: rest).drop 4)
      else if matchesAt "false".data (c :: rest) then
        some (Json.bool false, (c :: rest).drop 5)
      else
        parseNumTok (c :: rest)

/-- Parse the remaining elements of a nonempty array, first element done. -/
def parseArrTail (fuel : Nat) (acc : List Json) (cs : List Char) :
    Option (Json × List Char) :=
  match fuel with
  | 0 => none
  | fuel + 1 =>
    match skipWs cs with
    | ']' :: r => some (Json.arr acc.reverse, r)
    | ',' :: r =>
      match parseVal fuel r with
      | some (v, r2) => parseArrTail fuel (v :: acc) r2
      | none => none
    | _ => none

/-- Parse one `"key": value` member of an object. -/
def parseMember (fuel : Nat) (cs : List Char) :
    Option (String × Json × List Char) :=
  match fuel with
  | 0 => none
  | fuel + 1 =>
    match skipWs cs with
    | '"' :: rest =>
      match parseStrBody [] rest with
      | some (k, r1) =>
        match skipWs r1 with
        | ':' :: r2 =>
          match parseVal fuel r2 with
          | some (v, r3) => some (k, v, r3)
          | none => none
        | _ => none
      | none => none
    | _ => none

/-- Parse the remaining members of a nonempty object, first member done. -/
def parseObjTail (fuel : Nat) (acc : List (String × Json)) (cs : List Char) :
    Option (Json × List Char) :=
  match fuel with
  | 0 => none
  | fuel + 1 =>
    match skipWs cs with
    | '\x7d' :: r => some (Json.obj acc.reverse, r)
    | ',' :: r =>
      match parseMember fuel r with
      | some (k, v, r2) => parseObjTail fuel ((k, v) :: acc) r2
      | none => none
    | _ => none

end

/-- Parse a full JSON document from a character list: one value, then only
whitespace.  Models a successful `json.Unmarshal` run. -/
def parseJsonChars (cs : List Char) : Option Json :=
  match parseVal (2 * cs.length + 2) cs with
  | some (v, rest) => if skipWs rest = [] then some v else none
  | none => none

def parseJson (s : String) : Option Json := parseJsonChars s.data

/-- `json.Unmarshal(bs, &m)` for `m : map[string]interface{}`: fails (err
not nil) when the bytes are not one JSON document or the document is not
an object — except that unmarshalling the document `null` succeeds and
leaves the map nil, on which every lookup misses, modelled as the empty
field list. -/
def unmarshalMapChars (cs : List Char) : Option (List (String × Json)) :=
  match parseJsonChars cs with
  | some (Json.obj fields) => some fields
  | some Json.null => some []
  | some _ => none
  | none => none

def unmarshalMap (s : String) : Option (List (String × Json)) :=
  unmarshalMapChars s.data

/-- `extractContentFromResponse` (text.go lines 197 to 224): extract the
content field of the first choice of a non-streaming response, degrading
to a diagnostic placeholder at each failed structural expectation. -/
def extractContentFromResponse (responseBody : String) : String :=
  match unmarshalMap responseBody with
  | none => "Failed to parse response JSON"
  | some jsonData =>
    match (jget jsonData "choices").bind Json.asArr with
    | none => "No content found in response"
    | some choices =>
      match choices with
      | [] => "No content found in response"
      | choice :: _ =>
        match choice.asObj with
        | none => "Invalid choice format in response"
        | some choiceMap =>
          match (jget choiceMap "message").bind Json.asObj with
          | none => "Invalid message format in response"
          | some message =>
            match (jget message "content").bind Json.asStr with
            | none => "No content field found in message"
            | some content => content

/-- The whitespace set of `strings.TrimSpace` (`unicode.IsSpace` over the
characters a response can contain): space, tab, newline, vertical tab,
form feed, carriage return, next line, no-break space. -/
def isSpaceCh (c : Char) : Bool :=
  c == ' ' || c == '\t' || c == '\n' || c == '\x0B' || c == '\x0C' ||
    c == '\r' || c == '\x85' || c == ' '

/-- `strings.TrimSpace` on a character list. -/
def trimSpace (cs : List Char) : List Char :=
  ((cs.dropWhile isSpaceCh).reverse.dropWhile isSpaceCh).reverse

/-- The frame delimiter the streaming extractor splits on. -/
def dataMarker : List Char := "data: ".data

/-- Find the leftmost occurrence of `dataMarker` in `cs`: returns the text
before it and the text after it, or `none` when the marker never occurs. -/
def findSep : List Char → Option (List Char × List Char)
  | [] => none
  | c :: cs =>
    if matchesAt dataMarker (c :: cs) then
      some ([], (c :: cs).drop dataMarker.length)
    else
      match findSep cs with
      | some (p, r) => some (c :: p, r)
      | none => none

/-- Splitting worker, structural on `fuel`.  By `findSep_length` every
round strictly shrinks the remainder, so any fuel above the input length
is never exhausted and the zero-fuel branch encodes no real input. -/
def splitChunksF : Nat → List Char → List (List Char)
  | 0, cs => [cs]
  | fuel + 1, cs =>
    match findSep cs with
    | none => [cs]
    | some (p, r) => p :: splitChunksF fuel r

/-- `strings.Split(content, "data: ")` (text.go line 229): the substrings
between consecutive non-overlapping leftmost occurrences of the marker. -/
def splitChunks (cs : List Char) : List (List Char) :=
  splitChunksF (cs.length + 1) cs

/-- The delta-content contribution of one element of `choices` in a
streaming frame (text.go lines 252 to 268): the content string when the
choice is an object whose `delta` field is an object with a string
`content` field, and nothing otherwise. -/
def extractDeltaContent (choice : Json) : String :=
  match choice.asObj with
  | none => ""
  | some choiceMap =>
    match (jget choiceMap "delta").bind Json.asObj with
    | none => ""
    | some delta =>
      match (jget delta "content").bind Json.asStr with
      | none => ""
      | some contentPiece => contentPiece

/-- The contribution of one chunk of the split input (text.go lines 233 to
268): trim, skip empty and sentinel chunks, skip chunks that fail to
unmarshal or have no nonempty `choices` array, and otherwise emit every
delta content fragment of the chunk in order. -/
def processChunk (chunkRaw : List Char) : String :=
  let chunk := trimSpace chunkRaw
  if chunk.isEmpty || chunk == "[DONE]".data then ""
  else
    match unmarshalMapChars chunk with
    | none => ""
    | some jsonData =>
      match (jget jsonData "choices").bind Json.asArr with
      | none => ""
      | some choices =>
        if choices.isEmpty then ""
        else String.join (choices.map extractDeltaContent)

/-- `extractContentFromStream` (text.go lines 227 to 272): split on the
frame marker and concatenate every chunk contribution in arrival order
(the source accumulates into a `strings.Builder` while iterating over the
chunks, which is the same concatenation). -/
def extractContentFromStream (content : String) : String :=
  String.join ((splitChunks content.data).map processChunk)

/-- The UTF-8 bytes of a Go string. -/
def strBytes (s : String) : List UInt8 := s.toUTF8.toList

/-- Go `string(bs)` on bytes that came from a string. -/
def utf8Decode (bs : List UInt8) : String :=
  (String.fromUTF8? ⟨bs.toArray⟩).getD ""

/-- The wrapped `gin.ResponseWriter` underneath the tap, as an oracle: the
count and error its `Write` returns may depend on the payload and on what
the sink has been sent so far, and on nothing else — in particular not on
the tap accumulator, which the oracle cannot see. -/
structure SinkOracle where
  write : List (List UInt8) → List UInt8 → Nat × Option String

/-- `responseBodyLogWriter` (text.go lines 26 to 32): the accumulating
buffer `body` plus the wrapped response writer, whose state is the list of
payloads forwarded to it, in order.  The `isStream` mutex only serializes
concurrent callers and does not change the sequential data flow modelled
here. -/
structure ResponseBodyLogWriter where
  body : List UInt8
  sinkCalls : List (List UInt8)

/-- `responseBodyLogWriter.Write` (text.go lines 34 to 41): append `b` to
the accumulator (`bytes.Buffer.Write` always succeeds), then forward `b`
to the wrapped writer and return exactly the wrapped writer result. -/
def rblwWrite (sink : SinkOracle) (w : ResponseBodyLogWriter) (b : List UInt8) :
    (Nat × Option String) × ResponseBodyLogWriter :=
  let w1 : ResponseBodyLogWriter := { w with body := w.body ++ b }
  (sink.write w1.sinkCalls b, { w1 with sinkCalls := w1.sinkCalls ++ [b] })

/-- `responseBodyLogWriter.WriteString` (text.go lines 43 to 50): same as
`Write` with the bytes of `s`. -/
def rblwWriteString (sink : SinkOracle) (w : ResponseBodyLogWriter) (s : String) :
    (Nat × Option String) × ResponseBodyLogWriter :=
  let w1 : ResponseBodyLogWriter := { w with body := w.body ++ strBytes s }
  (sink.write w1.sinkCalls (strBytes s),
    { w1 with sinkCalls := w1.sinkCalls ++ [strBytes s] })

/-- A finite sequence of `Write` calls, collecting every return value. -/
def runWrites (sink : SinkOracle) (w : ResponseBodyLogWriter) :
    List (List UInt8) → List (Nat × Option String) × ResponseBodyLogWriter
  | [] => ([], w)
  | b :: bs =>
    let step := rblwWrite sink w b
    let rest := runWrites sink step.2 bs
    (step.1 :: rest.1, rest.2)

/-- The return values the real sink alone determines: the result of call
`i` is the oracle applied to the payloads before call `i` and to payload
`i`.  The tap accumulator does not appear. -/
def sinkOnlyResults (sink : SinkOracle) (prior : List (List UInt8)) :
    List (List UInt8) → List (Nat × Option String)
  | [] => []
  | b :: bs => sink.write prior b :: sinkOnlyResults sink (prior ++ [b]) bs

/-- Modelled from the spec: the `relay/apitype` enum value `OpenAI`.  The
enum definition is outside the given source tree; only distinctness of the
values matters here. -/
def apitypeOpenAI : Nat := 0

/-- Modelled from the spec: the `relay/channeltype` enum value `Baichuan`,
the backend family needing the fixed field correction. -/
def channeltypeBaichuan : Nat := 26

/-- The two return values of `getRequestBody`: the bytes sent upstream and
the logged body text. -/
structure RequestBodyResult where
  requestBody : List UInt8
  bodyContent : String

/-- `getRequestBody` (text.go lines 133 to 176).  The external effects are
passed as outcomes: `rawBody` is `io.ReadAll(c.Request.Body)`,
`marshalTextRequest` is `json.Marshal(textRequest)`, and `convertedJson`
is `adaptor.ConvertRequest` followed by `json.Marshal` on the non-OpenAI
branch, an error standing for a failure of either step. -/
def getRequestBody (apiType channelType : Nat) (isModelMapped : Bool)
    (rawBody : Except String (List UInt8))
    (marshalTextRequest : Except String String)
    (convertedJson : Except String String) :
    Except String RequestBodyResult :=
  if apiType = apitypeOpenAI then
    -- no need to convert request for openai
    if isModelMapped || (channelType == channeltypeBaichuan) then
      match marshalTextRequest with
      | .error e => .error e
      | .ok jsonStr => .ok ⟨strBytes jsonStr, jsonStr⟩
    else
      match rawBody with
      | .error e => .error e
      | .ok bodyBytes => .ok ⟨bodyBytes, utf8Decode bodyBytes⟩
  else
    match convertedJson with
    | .error e => .error e
    | .ok jsonData => .ok ⟨strBytes jsonData, jsonData⟩

/-- Modelled from the spec: `getMappedModelName` is repository code outside
the given source tree; the spec contract is
`ModelMapper.Resolve(requestedName) = (effectiveName, wasRemapped)` — a
name present in the table maps to its entry with `wasRemapped` true, an
absent name is returned unchanged with `wasRemapped` false. -/
def getMappedModelName (modelName : String) (mapping : List (String × String)) :
    String × Bool :=
  match mapping.find? (fun p => p.1 == modelName) with
  | some p => (p.2, true)
  | none => (modelName, false)

/-- The model-name fields after the mapping step. -/
structure ModelMapStep where
  originModelName : String
  actualModelName : String
  requestModel : String
  isModelMapped : Bool

/-- The model-mapping step of `RelayTextHelper` (text.go lines 72 to 76):
record the original name, rewrite `textRequest.Model` through the mapping,
record the effective name. -/
def mapModelName (requestModel : String) (modelMapping : List (String × String)) :
    ModelMapStep :=
  let originModelName := requestModel
  let mapped := getMappedModelName requestModel modelMapping
  ⟨originModelName, mapped.1, mapped.1, mapped.2⟩

/-- Quota-ledger events the relay call triggers.  Modelled from the spec
(the billing package is outside the given source tree): `preConsumeQuota`
reserving the pre-consumed amount debits it,
`billing.ReturnPreConsumedQuota` credits a reservation back in full, and
`postConsumeQuota` settles a reservation against the actual usage. -/
inductive LedgerEvent where
  | reserve (amount : Int)
  | release (amount : Int)
  | settle (preConsumed : Int) (actual : Int)

/-- How each terminating branch of `RelayTextHelper` reports, named by the
error code it wraps (`nil` return is `ok`). -/
inductive RelayOutcome where
  | invalidTextRequest
  | preConsumeFailed
  | invalidApiType
  | convertRequestFailed
  | doRequestFailed
  | upstreamError
  | responseFailed
  | ok
deriving DecidableEq

/-- Outcomes of the collaborator calls `RelayTextHelper` makes, in call
order.  `preConsume` carries the reserved amount on success, `doResponse`
the actual usage. -/
structure RelayEnv where
  validateRequest : Except String Unit
  preConsume : Except String Int
  adaptorFound : Bool
  buildRequestBody : Except String Unit
  doRequest : Except String Unit
  errorHappened : Bool
  doResponse : Except String Int

/-- The control flow of `RelayTextHelper` (text.go lines 52 to 131) over
the collaborator outcomes, returning the branch taken and the ledger
events triggered, in order.  Quota is released only on the
`isErrorHappened` branch (line 112) and the `DoResponse` failure branch
(line 120), and settled by `postConsumeQuota` on full success (line 129);
no other branch touches the reservation. -/
def relayTextHelper (env : RelayEnv) : RelayOutcome × List LedgerEvent :=
  match env.validateRequest with
  | .error _ => (.invalidTextRequest, [])
  | .ok _ =>
    match env.preConsume with
    | .error _ => (.preConsumeFailed, [])
    | .ok preConsumedQuota =>
      if !env.adaptorFound then (.invalidApiType, [.reserve preConsumedQuota])
      else
        match env.buildRequestBody with
        | .error _ => (.convertRequestFailed, [.reserve preConsumedQuota])
        | .ok _ =>
          match env.doRequest with
          | .error _ => (.doRequestFailed, [.reserve preConsumedQuota])
          | .ok _ =>
            if env.errorHappened then
              (.upstreamError,
                [.reserve preConsumedQuota, .release preConsumedQuota])
            else
              match env.doResponse with
              | .error _ =>
                (.responseFailed,
                  [.reserve preConsumedQuota, .release preConsumedQuota])
              | .ok usage =>
                (.ok, [.reserve preConsumedQuota,
                  .settle preConsumedQuota usage])

/-- The account-balance change of one ledger event: reserving debits,
releasing credits the reserved amount back, settling replaces the reserved
debit by the actual usage. -/
def ledgerDelta : LedgerEvent → Int
  | .reserve amount => -amount
  | .release amount => amount
  | .settle preConsumed actual => preConsumed - actual

/-- The net account-balance change of a run. -/
def balanceDelta (events : List LedgerEvent) : Int :=
  (events.map ledgerDelta).sum

def isReleaseEvent : LedgerEvent → Bool
  | .release _ => true
  | _ => false

def isSettleEvent : LedgerEvent → Bool
  | .settle _ _ => true
  | _ => false

/-- How many times a run releases the reservation. -/
def releaseCount (events : List LedgerEvent) : Nat :=
  (events.filter isReleaseEvent).length

/-- How many times a run settles the reservation. -/
def settleCount (events : List LedgerEvent) : Nat :=
  (events.filter isSettleEvent).length

/-- The claim of the reservation invariant as stated: the run releases the
reservation exactly once or settles it exactly once. -/
def settledOrReleasedOnce (events : List LedgerEvent) : Prop :=
  (releaseCount events = 1 ∧ settleCount events = 0) ∨
  (releaseCount events = 0 ∧ settleCount events = 1)

/-- A wrapped sink that rejects every write. -/
def sinkErrOracle : SinkOracle :=
  ⟨fun _ _ => (0, some "sink failure")⟩

/-- The reservation lifecycle a run actually obeys: never both released
and settled, each at most once; released exactly once and never settled
when the run ends in the upstream-error branch or the response-failure
branch; settled exactly once and never released on full success; released
or settled exactly once in no other case; and the reservation is touched
by neither release nor settlement when adaptor lookup, request-body
construction or DoRequest fails. -/
def reservationLifecycleSpec (env : RelayEnv) : Prop :=
  ¬ (1 ≤ releaseCount (relayTextHelper env).2 ∧
      1 ≤ settleCount (relayTextHelper env).2) ∧
  releaseCount (relayTextHelper env).2 ≤ 1 ∧
  settleCount (relayTextHelper env).2 ≤ 1 ∧
  (((relayTextHelper env).1 = RelayOutcome.upstreamError ∨
    (relayTextHelper env).1 = RelayOutcome.responseFailed) →
    releaseCount (relayTextHelper env).2 = 1 ∧
    settleCount (relayTextHelper env).2 = 0) ∧
  ((relayTextHelper env).1 = RelayOutcome.ok →
    settleCount (relayTextHelper env).2 = 1 ∧
    releaseCount (relayTextHelper env).2 = 0) ∧
  (settledOrReleasedOnce (relayTextHelper env).2 ↔
    ((relayTextHelper env).1 = RelayOutcome.upstreamError ∨
     (relayTextHelper env).1 = RelayOutcome.responseFailed ∨
     (relayTextHelper env).1 = RelayOutcome.ok)) ∧
  (((relayTextHelper env).1 = RelayOutcome.invalidApiType ∨
    (relayTextHelper env).1 = RelayOutcome.convertRequestFailed ∨
    (relayTextHelper env).1 = RelayOutcome.doRequestFailed) →
    releaseCount (relayTextHelper env).2 = 0 ∧
    settleCount (relayTextHelper env).2 = 0)

/-- A run that reserves quota and then finds no adaptor for the api type. -/
def relayEnvNoAdaptor : RelayEnv :=
  { validateRequest := .ok (), preConsume := .ok 7, adaptorFound := false,
    buildRequestBody := .ok (), doRequest := .ok (), errorHappened := false,
    doResponse := .ok 3 }

/-- A run that reserves quota and then fails the upstream request. -/
def relayEnvDoRequestFails : RelayEnv :=
  { validateRequest := .ok (), preConsume := .ok 100, adaptorFound := true,
    buildRequestBody := .ok (), doRequest := .error "connection refused",
    errorHappened := false, doResponse := .ok 0 }

/-- A run that reserves quota and then fails in DoResponse. -/
def relayEnvResponseFails : RelayEnv :=
  { validateRequest := .ok (), preConsume := .ok 100, adaptorFound := true,
    buildRequestBody := .ok (), doRequest := .ok (), errorHappened := false,
    doResponse := .error "bad payload" }

theorem runWrites_spec (sink : SinkOracle) (bs : List (List UInt8)) :
    ∀ w : ResponseBodyLogWriter,
      (runWrites sink w bs).2.sinkCalls = w.sinkCalls ++ bs ∧
      (runWrites sink w bs).2.body = w.body ++ bs.flatten ∧
      (runWrites sink w bs).1 = sinkOnlyResults sink w.sinkCalls bs := by
  induction bs with
  | nil => intro w; simp [runWrites, sinkOnlyResults]
  | cons b bs ih =>
    intro w
    obtain ⟨h1, h2, h3⟩ := ih { w with
      body := w.body ++ b, sinkCalls := w.sinkCalls ++ [b] }
    refine ⟨?_, ?_, ?_⟩
    · simp [runWrites, rblwWrite, h1]
    · simp [runWrites, rblwWrite, h2]
    · simp [runWrites, rblwWrite, sinkOnlyResults, h3]

/-- Claim C3: over any finite sequence of Write calls starting from the
fresh tap, the payloads forwarded to the wrapped sink are exactly the
payloads passed to the tap, in order; the accumulated body is their
concatenation; and every return value is exactly the wrapped sink result,
computed from the sink-side history alone, never from the accumulator. -/
theorem tap_transparency (sink : SinkOracle) (bs : List (List UInt8)) :
    (runWrites sink ⟨[], []⟩ bs).2.sinkCalls = bs ∧
    (runWrites sink ⟨[], []⟩ bs).2.body = bs.flatten ∧
    (runWrites sink ⟨[], []⟩ bs).1 = sinkOnlyResults sink [] bs := by
  have h := runWrites_spec sink bs ⟨[], []⟩
  simpa using h

/-- Claim C9: the tap appends the payload to its accumulator
unconditionally, so even when the wrapped sink reports an error from Write
or WriteString, the payload bytes are in the captured copy. -/
theorem tap_captures_despite_sink_error (sink : SinkOracle)
    (w : ResponseBodyLogWriter) (b : List UInt8) (s : String)
    (n : Nat) (e : String) :
    ((rblwWrite sink w b).1 = (n, some e) →
      (rblwWrite sink w b).2.body = w.body ++ b) ∧
    ((rblwWriteString sink w s).1 = (n, some e) →
      (rblwWriteString sink w s).2.body = w.body ++ strBytes s) :=
  ⟨fun _ => rfl, fun _ => rfl⟩

theorem tap_captures_despite_sink_error_witness :
    (rblwWrite sinkErrOracle ⟨[], []⟩ [55]).2.body = [] ++ [55] ∧
    (rblwWriteString sinkErrOracle ⟨[], []⟩ "A").2.body =
      [] ++ strBytes "A" :=
  ⟨(tap_captures_despite_sink_error sinkErrOracle ⟨[], []⟩ [55] "A"
      0 "sink failure").1 rfl,
   (tap_captures_despite_sink_error sinkErrOracle ⟨[], []⟩ [55] "A"
      0 "sink failure").2 rfl⟩

/-- Claim C8: with the mapping table sending gpt-x to gpt-x-2024, a
request for gpt-x gets model gpt-x-2024 with the remapped flag true, the
original name recorded as origin and the effective name as actual; any
name the table does not contain is left unchanged with the flag false and
both recorded names equal to it. -/
theorem model_mapping_spec :
    (mapModelName "gpt-x" [("gpt-x", "gpt-x-2024")]).requestModel =
      "gpt-x-2024" ∧
    (mapModelName "gpt-x" [("gpt-x", "gpt-x-2024")]).isModelMapped = true ∧
    (mapModelName "gpt-x" [("gpt-x", "gpt-x-2024")]).originModelName =
      "gpt-x" ∧
    (mapModelName "gpt-x" [("gpt-x", "gpt-x-2024")]).actualModelName =
      "gpt-x-2024" ∧
    ∀ (name : String) (mapping : List (String × String)),
      mapping.find? (fun p => p.1 == name) = none →
        (mapModelName name mapping).requestModel = name ∧
        (mapModelName name mapping).isModelMapped = false ∧
        (mapModelName name mapping).originModelName = name ∧
        (mapModelName name mapping).actualModelName = name := by
  refine ⟨rfl, rfl, rfl, rfl, ?_⟩
  intro name mapping h
  simp [mapModelName, getMappedModelName, h]

theorem model_mapping_spec_witness :
    (mapModelName "foo" [("gpt-x", "gpt-x-2024")]).requestModel = "foo" ∧
    (mapModelName "foo" [("gpt-x", "gpt-x-2024")]).isModelMapped = false ∧
    (mapModelName "foo" [("gpt-x", "gpt-x-2024")]).originModelName = "foo" ∧
    (mapModelName "foo" [("gpt-x", "gpt-x-2024")]).actualModelName = "foo" :=
  model_mapping_spec.2.2.2.2 "foo" [("gpt-x", "gpt-x-2024")] rfl

/-- Claim C5: the non-streaming extractor returns ok on the one-choice
example, returns the no-content placeholder on the empty-choices example
instead of failing, and in general returns the content string of the
message of the first choice whenever that structure is present. -/
theorem response_extraction_spec :
    extractContentFromResponse
      "\x7b\"choices\":[\x7b\"message\":\x7b\"content\":\"ok\"\x7d\x7d]\x7d" = "ok" ∧
    extractContentFromResponse "\x7b\"choices\":[]\x7d" =
      "No content found in response" ∧
    ∀ (s : String) (fields : List (String × Json)) (choice : Json)
      (rest : List Json) (choiceMap msgFields : List (String × Json))
      (content : String),
      unmarshalMap s = some fields →
      (jget fields "choices").bind Json.asArr = some (choice :: rest) →
      choice.asObj = some choiceMap →
      (jget choiceMap "message").bind Json.asObj = some msgFields →
      (jget msgFields "content").bind Json.asStr = some content →
      extractContentFromResponse s = content := by
  refine ⟨rfl, rfl, ?_⟩
  intro s fields choice rest choiceMap msgFields content h1 h2 h3 h4 h5
  simp [extractContentFromResponse, h1, h2, h3, h4, h5]

theorem response_extraction_spec_witness :
    extractContentFromResponse
      "\x7b\"choices\":[\x7b\"message\":\x7b\"content\":\"ok\"\x7d\x7d]\x7d" = "ok" :=
  response_extraction_spec.2.2
    "\x7b\"choices\":[\x7b\"message\":\x7b\"content\":\"ok\"\x7d\x7d]\x7d"
    [("choices", Json.arr [Json.obj
      [("message", Json.obj [("content", Json.str "ok")])]])]
    (Json.obj [("message", Json.obj [("content", Json.str "ok")])]) []
    [("message", Json.obj [("content", Json.str "ok")])]
    [("content", Json.str "ok")] "ok" rfl rfl rfl rfl rfl

/-- Claim C6: the non-streaming extractor is a pure function of the
captured bytes, so extracting twice from the same bytes gives the same
string; and whenever unmarshalling the bytes fails, it returns the
unparsable-JSON placeholder as an ordinary value. -/
theorem response_extraction_deterministic (s : String) :
    extractContentFromResponse s = extractContentFromResponse s ∧
    (unmarshalMap s = none →
      extractContentFromResponse s = "Failed to parse response JSON") := by
  refine ⟨rfl, ?_⟩
  intro h
  simp [extractContentFromResponse, h]

theorem response_extraction_deterministic_witness :
    extractContentFromResponse "not json" =
      "Failed to parse response JSON" :=
  (response_extraction_deterministic "not json").2 rfl

/-- Claim C7: on the OpenAI api type, request-body construction ignores
the conversion outcome entirely; with no model remap and a channel other
than Baichuan it forwards the inbound bytes unchanged, and with a remap or
the Baichuan channel it sends the re-serialized canonical request. -/
theorem openai_passthrough_spec (channelType : Nat) (isModelMapped : Bool)
    (rawBody : Except String (List UInt8))
    (marshalTextRequest : Except String String)
    (cj1 cj2 : Except String String) :
    getRequestBody apitypeOpenAI channelType isModelMapped rawBody
        marshalTextRequest cj1 =
      getRequestBody apitypeOpenAI channelType isModelMapped rawBody
        marshalTextRequest cj2 ∧
    (∀ bodyBytes : List UInt8, isModelMapped = false →
      channelType ≠ channeltypeBaichuan →
      rawBody = .ok bodyBytes →
      getRequestBody apitypeOpenAI channelType isModelMapped rawBody
          marshalTextRequest cj1 =
        .ok ⟨bodyBytes, utf8Decode bodyBytes⟩) ∧
    (∀ jsonStr : String,
      (isModelMapped = true ∨ channelType = channeltypeBaichuan) →
      marshalTextRequest = .ok jsonStr →
      getRequestBody apitypeOpenAI channelType isModelMapped rawBody
          marshalTextRequest cj1 =
        .ok ⟨strBytes jsonStr, jsonStr⟩) := by
  refine ⟨?_, ?_, ?_⟩
  · simp [getRequestBody]
  · intro bodyBytes hm hc hr
    subst hm
    simp [getRequestBody, hr, beq_iff_eq, hc]
  · intro jsonStr hmc hj
    rcases hmc with hm | hc
    · subst hm
      simp [getRequestBody, hj]
    · subst hc
      simp [getRequestBody, hj]

theorem openai_passthrough_spec_witness :
    getRequestBody apitypeOpenAI 3 false (.ok [1, 2])
        (.ok "\x7b\x7d") (.ok "converted") =
      .ok ⟨[1, 2], utf8Decode [1, 2]⟩ ∧
    getRequestBody apitypeOpenAI channeltypeBaichuan false (.ok [1, 2])
        (.ok "\x7b\x7d") (.ok "converted") =
      .ok ⟨strBytes "\x7b\x7d", "\x7b\x7d"⟩ :=
  ⟨(openai_passthrough_spec 3 false (.ok [1, 2]) (.ok "\x7b\x7d")
      (.ok "converted") (.ok "other")).2.1 [1, 2] rfl (by decide) rfl,
   (openai_passthrough_spec channeltypeBaichuan false (.ok [1, 2])
      (.ok "\x7b\x7d") (.ok "converted") (.ok "other")).2.2 "\x7b\x7d" (Or.inr rfl) rfl⟩

theorem findSep_length {cs p r : List Char} (h : findSep cs = some (p, r)) :
    r.length < cs.length := by
  induction cs generalizing p with
  | nil => simp [findSep] at h
  | cons c cs ih =>
    rw [findSep] at h
    by_cases hm : matchesAt dataMarker (c :: cs) = true
    · simp only [hm, if_pos] at h
      obtain ⟨-, hr⟩ := Prod.mk.injEq .. ▸ Option.some.injEq .. ▸ h
      subst hr
      have hd : dataMarker.length = 6 := rfl
      simp only [List.length_drop, List.length_cons, hd]
      omega
    · simp only [hm, if_neg, Bool.false_eq_true, not_false_iff, if_false] at h
      cases hf : findSep cs with
      | none => rw [hf] at h; exact absurd h (by simp)
      | some pr =>
        rw [hf] at h
        obtain ⟨p2, r2⟩ := pr
        simp only [Option.some.injEq, Prod.mk.injEq] at h
        obtain ⟨-, hr⟩ := h
        subst hr
        exact Nat.lt_trans (ih hf) (by simp)

theorem matchesAt_decomp {pat cs : List Char}
    (h : matchesAt pat cs = true) : cs = pat ++ cs.drop pat.length := by
  induction pat generalizing cs with
  | nil => simp
  | cons p ps ih =>
    cases cs with
    | nil => simp [matchesAt] at h
    | cons c cs =>
      simp only [matchesAt, Bool.and_eq_true, beq_iff_eq] at h
      obtain ⟨hpc, hrest⟩ := h
      subst hpc
      simpa using ih hrest

theorem matchesAt_of_append (pat rest : List Char) :
    matchesAt pat (pat ++ rest) = true := by
  induction pat with
  | nil => simp [matchesAt]
  | cons p ps ih => simp [matchesAt, ih]

theorem findSep_decomp {cs p r : List Char}
    (h : findSep cs = some (p, r)) : cs = p ++ dataMarker ++ r := by
  induction cs generalizing p with
  | nil => simp [findSep] at h
  | cons c cs ih =>
    rw [findSep] at h
    by_cases hm : matchesAt dataMarker (c :: cs) = true
    · simp only [hm, if_pos, Option.some.injEq, Prod.mk.injEq] at h
      obtain ⟨hp, hr⟩ := h
      subst hp
      subst hr
      simpa using matchesAt_decomp hm
    · simp only [hm, if_neg, Bool.false_eq_true, not_false_iff, if_false] at h
      cases hf : findSep cs with
      | none => rw [hf] at h; exact absurd h (by simp)
      | some pr =>
        rw [hf] at h
        obtain ⟨p2, r2⟩ := pr
        simp only [Option.some.injEq, Prod.mk.injEq] at h
        obtain ⟨hp, hr⟩ := h
        subst hp
        subst hr
        simpa using ih hf

theorem findSep_isSome_of_decomp (l r : List Char) :
    (findSep (l ++ dataMarker ++ r)).isSome = true := by
  induction l with
  | nil =>
    have h2 := matchesAt_of_append dataMarker r
    rw [show dataMarker ++ r = 'd' :: ("ata: ".data ++ r) from rfl] at h2
    simp only [List.nil_append]
    rw [show dataMarker ++ r = 'd' :: ("ata: ".data ++ r) from rfl]
    rw [findSep]
    simp at h2
    simp [h2]
  | cons c l ih =>
    rw [show (c :: l) ++ dataMarker ++ r = c :: (l ++ (dataMarker ++ r)) by simp]
    rw [findSep]
    simp only [List.append_assoc] at ih
    by_cases hm : matchesAt dataMarker (c :: (l ++ (dataMarker ++ r))) = true
    · simp [hm]
    · simp only [hm, Bool.false_eq_true, not_false_iff, if_false]
      cases hf : findSep (l ++ (dataMarker ++ r)) with
      | none => rw [hf] at ih; simp at ih
      | some pr => simp

/-- A marker-free character list splits into itself alone. -/
theorem splitChunks_of_no_marker {cs : List Char}
    (h : findSep cs = none) : splitChunks cs = [cs] := by
  simp [splitChunks, splitChunksF, h]

/-- Claim C4: the three-frame example extracts Hello; in general the
result is the in-order concatenation of the per-chunk contributions of
the split input, a chunk that fails to unmarshal contributes nothing
rather than aborting, and a choice whose delta lacks a string content
field contributes no text. -/
theorem stream_extraction_spec :
    extractContentFromStream
      "data: \x7b\"choices\":[\x7b\"delta\":\x7b\"content\":\"Hel\"\x7d\x7d]\x7d\n\ndata: \x7b\"choices\":[\x7b\"delta\":\x7b\"content\":\"lo\"\x7d\x7d]\x7d\n\ndata: [DONE]\n\n" =
      "Hello" ∧
    (∀ s : String, extractContentFromStream s =
      String.join ((splitChunks s.data).map processChunk)) ∧
    (∀ cs : List Char, unmarshalMapChars (trimSpace cs) = none →
      processChunk cs = "") ∧
    (∀ (choiceMap deltaFields : List (String × Json)),
      jget choiceMap "delta" = some (Json.obj deltaFields) →
      (jget deltaFields "content").bind Json.asStr = none →
      extractDeltaContent (Json.obj choiceMap) = "") := by
  refine ⟨rfl, fun s => rfl, ?_, ?_⟩
  · intro cs h
    unfold processChunk
    by_cases he : (trimSpace cs).isEmpty || trimSpace cs == "[DONE]".data
    · simp [he]
    · simp [he, h]
  · intro choiceMap deltaFields h1 h2
    simp [extractDeltaContent, Json.asObj, h1, h2]

theorem stream_extraction_spec_witness :
    processChunk "garbage".data = "" :=
  stream_extraction_spec.2.2.1 "garbage".data rfl

/-- Claim C10: the streaming extractor splits at every occurrence of the
marker, wherever it stands, as the mid-string example shows; `findSep`
finding nothing is exactly the absence of the marker substring, and on
any input without the marker the whole input is handled as one frame
(trimmed and parsed by the single chunk step). -/
theorem stream_split_anywhere_spec :
    extractContentFromStream
      "\x7b\"choices\":[\x7b\"delta\":\x7b\"content\":\"x\"\x7d\x7d]\x7d" = "x" ∧
    extractContentFromStream
      "foodata: \x7b\"choices\":[\x7b\"delta\":\x7b\"content\":\"y\"\x7d\x7d]\x7d" = "y" ∧
    (∀ cs : List Char,
      findSep cs = none ↔ ¬ ∃ l r, cs = l ++ dataMarker ++ r) ∧
    (∀ s : String, findSep s.data = none →
      extractContentFromStream s = processChunk s.data) := by
  refine ⟨rfl, rfl, ?_, ?_⟩
  · intro cs
    constructor
    · rintro h ⟨l, r, hcs⟩
      subst hcs
      have := findSep_isSome_of_decomp l r
      rw [h] at this
      simp at this
    · intro h
      cases hf : findSep cs with
      | none => rfl
      | some pr =>
        obtain ⟨p, r⟩ := pr
        exact absurd ⟨p, r, findSep_decomp hf⟩ h
  · intro s h
    show String.join ((splitChunks s.data).map processChunk) = _
    rw [splitChunks_of_no_marker h]
    simp [String.join]

theorem stream_split_anywhere_spec_witness :
    extractContentFromStream "hello" = processChunk "hello".data :=
  stream_split_anywhere_spec.2.2.2 "hello" rfl

/-- Counterexample to claim C1 as stated: in the run that reserves 7 and
then fails adaptor lookup, the reservation is neither released nor
settled, so it is not the case that every run with a reservation releases
or settles it exactly once. -/
theorem relay_reservation_leaked_without_adaptor :
    relayEnvNoAdaptor.validateRequest = Except.ok () ∧
    relayEnvNoAdaptor.preConsume = Except.ok 7 ∧
    (relayTextHelper relayEnvNoAdaptor).2 = [LedgerEvent.reserve 7] ∧
    ¬ settledOrReleasedOnce (relayTextHelper relayEnvNoAdaptor).2 := by
  refine ⟨rfl, rfl, rfl, ?_⟩
  rintro (⟨h, -⟩ | ⟨-, h⟩) <;>
    simp [relayTextHelper, relayEnvNoAdaptor, releaseCount, settleCount,
      isReleaseEvent, isSettleEvent] at h

/-- Claim C1 (amended): in every run whose quota reservation is created,
the reservation is never both released and settled, and each happens at
most once; it is released exactly once (and not settled) when the upstream
error check or DoResponse fails, settled exactly once (and not released)
on full success, and when adaptor lookup, request-body construction or
DoRequest fails the reservation is neither released nor settled. -/
theorem relay_reservation_lifecycle (env : RelayEnv) (q : Int)
    (hv : env.validateRequest = Except.ok ())
    (hp : env.preConsume = Except.ok q) :
    reservationLifecycleSpec env := by
  unfold reservationLifecycleSpec settledOrReleasedOnce
  cases haf : env.adaptorFound <;>
    cases hbb : env.buildRequestBody <;>
    cases hdr : env.doRequest <;>
    cases heh : env.errorHappened <;>
    cases hresp : env.doResponse <;>
    simp [relayTextHelper, hv, hp, haf, hbb, hdr, heh, hresp,
      releaseCount, settleCount, isReleaseEvent, isSettleEvent, List.filter]

theorem relay_reservation_lifecycle_witness :
    reservationLifecycleSpec
      { validateRequest := .ok (), preConsume := .ok 5, adaptorFound := true,
        buildRequestBody := .ok (), doRequest := .ok (),
        errorHappened := false, doResponse := .ok 3 } :=
  relay_reservation_lifecycle _ 5 rfl rfl

/-- Counterexample to claim C2 as stated: when DoRequest fails after a
reservation of 100 was made, the run returns the do-request-failed error
but the balance change is -100, not the zero the claim requires — the
reservation is not released. -/
theorem relay_do_request_failure_keeps_debit :
    (relayTextHelper relayEnvDoRequestFails).1 =
      RelayOutcome.doRequestFailed ∧
    balanceDelta (relayTextHelper relayEnvDoRequestFails).2 = -100 ∧
    ¬ balanceDelta (relayTextHelper relayEnvDoRequestFails).2 = 0 := by
  refine ⟨rfl, by decide, by decide⟩

/-- Claim C2 (amended): after a reservation, a failure of the upstream
error check or of DoResponse releases the reservation in full — the
balance change of the run is zero — and the run reports the error of that
failure site; but a failure of DoRequest itself reports the
do-request-failed error with the reservation still held, the balance
staying debited by the reserved amount. -/
theorem relay_rollback_behaviour (env : RelayEnv) (q : Int)
    (hv : env.validateRequest = Except.ok ())
    (hp : env.preConsume = Except.ok q)
    (ha : env.adaptorFound = true)
    (hb : env.buildRequestBody = Except.ok ()) :
    (∀ e : String, env.doRequest = Except.error e →
      (relayTextHelper env).1 = RelayOutcome.doRequestFailed ∧
      balanceDelta (relayTextHelper env).2 = -q) ∧
    (env.doRequest = Except.ok () → env.errorHappened = true →
      (relayTextHelper env).1 = RelayOutcome.upstreamError ∧
      balanceDelta (relayTextHelper env).2 = 0) ∧
    (∀ e : String, env.doRequest = Except.ok () →
      env.errorHappened = false → env.doResponse = Except.error e →
      (relayTextHelper env).1 = RelayOutcome.responseFailed ∧
      balanceDelta (relayTextHelper env).2 = 0) := by
  refine ⟨?_, ?_, ?_⟩
  · intro e hdr
    simp [relayTextHelper, hv, hp, ha, hb, hdr, balanceDelta, ledgerDelta]
  · intro hdr heh
    simp [relayTextHelper, hv, hp, ha, hb, hdr, heh, balanceDelta,
      ledgerDelta]
  · intro e hdr heh hresp
    simp [relayTextHelper, hv, hp, ha, hb, hdr, heh, hresp, balanceDelta,
      ledgerDelta]

theorem relay_rollback_behaviour_witness :
    (relayTextHelper relayEnvResponseFails).1 =
      RelayOutcome.responseFailed ∧
    balanceDelta (relayTextHelper relayEnvResponseFails).2 = 0 :=
  (relay_rollback_behaviour relayEnvResponseFails 100 rfl rfl rfl rfl).2.2
    "bad payload" rfl rfl rfl
